import Mathlib

/-!
Verification of the zombie-infection simulation (`src/main.js`).

The JavaScript source has three classes:
* `Simulation` — one run: a list of houses (`false` = uninfected), a zombie
  count and a day counter, advanced by `tick()`;
* `Results` — collects completion day counts and renders count / average;
* `Application` — builds `numberOfSimulations` runs and chains them
  sequentially through each run's `onDone` callback.

Randomness (`Math.floor(Math.random() * this.houses.length)`) is modelled as
a stream `rand : Nat → Nat` of the drawn indices, consumed left to right; a
cursor records how many draws have been consumed so far.  DOM rendering and
`setInterval` timing are presentation-only; the scheduling they induce (the
active run is ticked repeatedly until it completes, then the next run starts)
is modelled by the `appStep` relation below.
-/

namespace Simplocalypse

/-- State of one `Simulation` instance: `zombies` (starts at 1), `day`
(starts at 0) and `houses` (`false` = not yet infected), from the
`Simulation` constructor in `src/main.js`. -/
structure Simulation where
  zombies : Nat
  day : Nat
  houses : List Bool
  deriving Repr, DecidableEq

/-- Constructor of `Simulation`: `zombies = 1`, `day = 0`, and
`houses = new Array(numberOfHouses).fill(false)`. -/
def Simulation.init (numberOfHouses : Nat) : Simulation :=
  { zombies := 1, day := 0, houses := List.replicate numberOfHouses false }

/-- Number of infected houses (`true` entries). -/
def countInfected (houses : List Bool) : Nat :=
  houses.count true

/-- The `for (let zombie = 0; zombie < this.zombies; zombie++)` loop of
`tick()`: zombie number `z` (of the remaining `n`) draws index
`rand (cursor + z)`; if the house at that index is uninfected it is set to
infected and the `newlyInfected` tally is incremented.  Returns the updated
houses and the tally. -/
def visitZombies (rand : Nat → Nat) (cursor : Nat) : Nat → List Bool → List Bool × Nat
  | 0, houses => (houses, 0)
  | n + 1, houses =>
    let idx := rand cursor
    if houses.getD idx true = false then
      let rest := visitZombies rand (cursor + 1) n (houses.set idx true)
      (rest.1, rest.2 + 1)
    else
      visitZombies rand (cursor + 1) n houses

/-- One `tick()` of `Simulation`: increments the day, runs the zombie loop,
then adds the newly-infected tally to the zombie count.  Returns the new
state together with the new cursor into the random stream (each zombie
consumed one draw). -/
def Simulation.tick (rand : Nat → Nat) (cursor : Nat) (s : Simulation) : Simulation × Nat :=
  let visited := visitZombies rand cursor s.zombies s.houses
  ({ zombies := s.zombies + visited.2, day := s.day + 1, houses := visited.1 },
   cursor + s.zombies)

/-- Terminal condition checked at the end of `tick()`:
`!this.houses.includes(false)` — the run is complete when no house remains
uninfected. -/
def Simulation.isComplete (s : Simulation) : Bool :=
  !(s.houses.contains false)

/-- State (and cursor) after `d` consecutive `tick()` calls on a fresh
`Simulation` with `numberOfHouses = N`, drawing from `rand`. -/
def Simulation.run (rand : Nat → Nat) (N : Nat) : Nat → Simulation × Nat
  | 0 => (Simulation.init N, 0)
  | d + 1 =>
    let prev := Simulation.run rand N d
    Simulation.tick rand prev.2 prev.1

/-- The `Results.add` method: pushes a completion day count. -/
def Results.add (results : List Nat) (days : Nat) : List Nat :=
  results ++ [days]

/-- The numeric content of `Results.render`: `iterations = results.length`,
`totalDays = results.reduce((prev, curr) => prev + curr, 0)`,
`averageDays = totalDays / iterations` (rational division, modelling the
JavaScript number division). -/
def Results.render (results : List Nat) : Nat × ℚ :=
  let iterations := results.length
  let totalDays : Nat := results.foldl (fun prev curr => prev + curr) 0
  (iterations, (totalDays : ℚ) / (iterations : ℚ))

/-- State of the `Application`: the list of `Simulation` instances it built,
the index of the run currently driven by the live `setInterval` timer
(`current`; runs before it have completed, runs after it have not started),
the `Results` list, and the cursor into the random stream. -/
structure AppState where
  simulations : List Simulation
  current : Nat
  results : List Nat
  cursor : Nat
  deriving Repr, DecidableEq

/-- The `Application` constructor's simulation array:
`new Array(numberOfSimulations).fill().map(() => new Simulation(...))`,
followed by `initSynchronousSimulations()`, with `run()` starting run 0. -/
def AppState.init (numberOfSimulations numberOfHouses : Nat) : AppState :=
  { simulations := List.replicate numberOfSimulations (Simulation.init numberOfHouses),
    current := 0, results := [], cursor := 0 }

/-- Observable event of one scheduler firing: a run's `onDone` notification
carrying its final day count. -/
inductive Event where
  | done (runIndex : Nat) (days : Nat)
  deriving Repr, DecidableEq

/-- One firing of the scheduling collaborator: the live interval ticks the
current run; if that tick reaches the terminal condition the run calls
`stop()` (its interval never fires again), and its `onDone` callback records
`state.day` into the results and starts the next run (the last run's
callback instead renders the results).  After the last run completes no
interval is live and the state is inert. -/
def appStep (rand : Nat → Nat) (st : AppState) : AppState × Option Event :=
  if st.current < st.simulations.length then
    let sim := st.simulations.getD st.current (Simulation.init 0)
    let ticked := sim.tick rand st.cursor
    let sims := st.simulations.set st.current ticked.1
    if ticked.1.isComplete then
      ({ simulations := sims, current := st.current + 1,
         results := Results.add st.results ticked.1.day, cursor := ticked.2 },
       some (Event.done st.current ticked.1.day))
    else
      ({ st with simulations := sims, cursor := ticked.2 }, none)
  else (st, none)

/-- State and accumulated `onDone` events after `n` scheduler firings of an
`Application` built with the given configuration. -/
def appTrace (rand : Nat → Nat) (numberOfSimulations numberOfHouses : Nat) :
    Nat → AppState × List Event
  | 0 => (AppState.init numberOfSimulations numberOfHouses, [])
  | n + 1 =>
    let prev := appTrace rand numberOfSimulations numberOfHouses n
    let stepped := appStep rand prev.1
    (stepped.1, prev.2 ++ stepped.2.toList)

/-- Houses of a run with 100 houses after one day under the degenerate random
source that always draws index 0: only house 0 infected (the spec's
pathological-generator scenario). -/
def stuckHouses : List Bool :=
  (List.replicate 100 false).set 0 true

/-- Construction of `new Application(options)` as it behaves in JavaScript:
`new Array(n)` throws a `RangeError` for a negative length, and
`initSynchronousSimulations` (called from the constructor) throws a
`TypeError` when `numberOfSimulations = 0`, because `[].reduce(f)` with no
initial value is an error.  Otherwise construction succeeds with run 0 ready
to start. -/
def Application.build (numberOfSimulations : Int) (numberOfHouses : Nat) :
    Except String AppState :=
  if numberOfSimulations < 0 then
    Except.error "RangeError: invalid array length"
  else if numberOfSimulations = 0 then
    Except.error "TypeError: reduce of empty array with no initial value"
  else
    Except.ok (AppState.init numberOfSimulations.toNat numberOfHouses)

/-! Helper lemmas about lists of houses. -/

theorem getD_of_lt (l : List Bool) (d : Bool) {j : Nat} (h : j < l.length) :
    l.getD j d = l[j] := by
  simp [List.getD_eq_getElem?_getD, List.getElem?_eq_getElem h]

theorem lt_length_of_getD_true_eq_false {l : List Bool} {idx : Nat}
    (h : l.getD idx true = false) : idx < l.length := by
  by_contra hge
  rw [List.getD_eq_getElem?_getD, List.getElem?_eq_none (by omega)] at h
  simp at h

theorem countInfected_set {l : List Bool} {idx : Nat}
    (h : l.getD idx true = false) :
    countInfected (l.set idx true) = countInfected l + 1 := by
  have hlt : idx < l.length := lt_length_of_getD_true_eq_false h
  have hfalse : l[idx] = false := by rwa [getD_of_lt l true hlt] at h
  unfold countInfected
  rw [List.count_set true true l idx hlt]
  simp [hfalse]

theorem countInfected_le_length (l : List Bool) : countInfected l ≤ l.length :=
  List.count_le_length true l

/-! Helper lemmas about the zombie loop. -/

theorem visitZombies_length (rand : Nat → Nat) (cursor n : Nat) (houses : List Bool) :
    (visitZombies rand cursor n houses).1.length = houses.length := by
  induction n generalizing cursor houses with
  | zero => rfl
  | succ n ih =>
    simp only [visitZombies]
    split
    · simpa [List.length_set] using ih (cursor + 1) (houses.set (rand cursor) true)
    · exact ih (cursor + 1) houses

theorem visitZombies_mono (rand : Nat → Nat) (cursor n : Nat) (houses : List Bool)
    {j : Nat} (h : houses.getD j false = true) :
    (visitZombies rand cursor n houses).1.getD j false = true := by
  induction n generalizing cursor houses with
  | zero => exact h
  | succ n ih =>
    simp only [visitZombies]
    split
    · refine ih (cursor + 1) (houses.set (rand cursor) true) ?_
      rcases eq_or_ne (rand cursor) j with rfl | hne
      · have hlt : rand cursor < houses.length := lt_length_of_getD_true_eq_false (by assumption)
        rw [List.getD_eq_getElem?_getD, List.getElem?_set_self hlt]
        rfl
      · rw [List.getD_eq_getElem?_getD, List.getElem?_set_ne hne,
          ← List.getD_eq_getElem?_getD]
        exact h
    · exact ih cursor.succ houses h

theorem visitZombies_tally_le (rand : Nat → Nat) (cursor n : Nat) (houses : List Bool) :
    (visitZombies rand cursor n houses).2 ≤ n := by
  induction n generalizing cursor houses with
  | zero => exact Nat.le_refl 0
  | succ n ih =>
    simp only [visitZombies]
    split
    · have := ih (cursor + 1) (houses.set (rand cursor) true)
      omega
    · exact Nat.le_succ_of_le (ih (cursor + 1) houses)

theorem visitZombies_count (rand : Nat → Nat) (cursor n : Nat) (houses : List Bool) :
    countInfected (visitZombies rand cursor n houses).1 =
      countInfected houses + (visitZombies rand cursor n houses).2 := by
  induction n generalizing cursor houses with
  | zero => rfl
  | succ n ih =>
    simp only [visitZombies]
    split
    · dsimp only
      have hset := countInfected_set (by assumption :
        houses.getD (rand cursor) true = false)
      have := ih (cursor + 1) (houses.set (rand cursor) true)
      omega
    · exact ih (cursor + 1) houses

theorem exists_draw_succ_iff (rand : Nat → Nat) (c n j : Nat) :
    (∃ z, z < n + 1 ∧ rand (c + z) = j) ↔
      rand c = j ∨ ∃ z, z < n ∧ rand (c + 1 + z) = j := by
  constructor
  · rintro ⟨z, hz, hr⟩
    cases z with
    | zero => exact Or.inl (by simpa using hr)
    | succ z =>
      exact Or.inr ⟨z, by omega, by rwa [show c + 1 + z = c + (z + 1) by omega]⟩
  · rintro (hr | ⟨z, hz, hr⟩)
    · exact ⟨0, by omega, by simpa using hr⟩
    · exact ⟨z + 1, by omega, by rwa [show c + (z + 1) = c + 1 + z by omega]⟩

theorem visitZombies_getD_iff (rand : Nat → Nat) (cursor n : Nat) (houses : List Bool)
    {j : Nat} (hj : j < houses.length) :
    (visitZombies rand cursor n houses).1.getD j false = true ↔
      (houses.getD j false = true ∨ ∃ z, z < n ∧ rand (cursor + z) = j) := by
  induction n generalizing cursor houses with
  | zero => simp [visitZombies]
  | succ n ih =>
    simp only [visitZombies]
    rw [exists_draw_succ_iff]
    split
    · dsimp only
      have hidx : rand cursor < houses.length :=
        lt_length_of_getD_true_eq_false (by assumption)
      rw [ih (cursor + 1) (houses.set (rand cursor) true)
        (by simpa [List.length_set] using hj)]
      rcases eq_or_ne (rand cursor) j with heq | hne
      · have hset : (houses.set (rand cursor) true).getD j false = true := by
          rw [← heq, List.getD_eq_getElem?_getD, List.getElem?_set_self hidx]
          rfl
        exact iff_of_true (Or.inl hset) (Or.inr (Or.inl heq))
      · rw [List.getD_eq_getElem?_getD, List.getElem?_set_ne hne,
          ← List.getD_eq_getElem?_getD]
        tauto
    · have htrue : houses.getD j false = true ∨ rand cursor ≠ j := by
        rcases eq_or_ne (rand cursor) j with heq | hne
        · left
          have : ¬ houses.getD (rand cursor) true = false := by assumption
          have hT : houses.getD (rand cursor) true = true := by
            cases hgd : houses.getD (rand cursor) true
            · exact absurd hgd this
            · rfl
          rw [getD_of_lt _ _ hj]
          rw [heq, getD_of_lt _ _ hj] at hT
          exact hT
        · exact Or.inr hne
      rw [ih (cursor + 1) houses hj]
      tauto

theorem contains_false_eq_false_iff (l : List Bool) :
    l.contains false = false ↔ ∀ b ∈ l, b = true := by
  rw [List.contains_eq_any_beq, List.any_eq_false]
  constructor
  · intro h b hb
    have hbf := h b hb
    cases b
    · simp at hbf
    · rfl
  · intro h b hb
    rw [h b hb]
    decide

theorem not_mem_false_of_contains_eq_false {l : List Bool}
    (h : l.contains false = false) : ¬ false ∈ l := by
  intro hmem
  exact Bool.false_ne_true ((contains_false_eq_false_iff l).mp h false hmem)

theorem getD_true_of_contains_eq_false {l : List Bool} (idx : Nat)
    (h : l.contains false = false) : l.getD idx true = true := by
  rcases Nat.lt_or_ge idx l.length with hlt | hge
  · rw [getD_of_lt _ _ hlt]
    cases hval : l[idx] with
    | false => exact absurd (hval ▸ l.getElem_mem hlt) (not_mem_false_of_contains_eq_false h)
    | true => rfl
  · rw [List.getD_eq_getElem?_getD, List.getElem?_eq_none (by omega)]
    rfl

theorem visitZombies_of_complete (rand : Nat → Nat) (cursor n : Nat) (houses : List Bool)
    (h : houses.contains false = false) :
    visitZombies rand cursor n houses = (houses, 0) := by
  induction n generalizing cursor with
  | zero => rfl
  | succ n ih =>
    simp only [visitZombies]
    rw [getD_true_of_contains_eq_false (rand cursor) h]
    simp only [Bool.true_eq_false, if_false]
    exact ih (cursor + 1)

theorem isComplete_iff_contains (s : Simulation) :
    s.isComplete = true ↔ s.houses.contains false = false := by
  unfold Simulation.isComplete
  cases s.houses.contains false <;> simp

theorem isComplete_iff_countInfected (s : Simulation) :
    s.isComplete = true ↔ countInfected s.houses = s.houses.length := by
  rw [isComplete_iff_contains, contains_false_eq_false_iff]
  unfold countInfected
  rw [List.count_eq_length]
  constructor
  · intro h b hb
    exact (h b hb).symm
  · intro h b hb
    exact (h b hb).symm

theorem isComplete_iff_getD (s : Simulation) :
    s.isComplete = true ↔ ∀ j, j < s.houses.length → s.houses.getD j false = true := by
  rw [isComplete_iff_contains, contains_false_eq_false_iff]
  constructor
  · intro h j hj
    rw [getD_of_lt _ _ hj]
    exact h _ (s.houses.getElem_mem hj)
  · intro h b hb
    obtain ⟨j, hj, rfl⟩ := List.mem_iff_getElem.mp hb
    rw [← getD_of_lt _ false hj]
    exact h j hj

/-! Unfolding equations for `tick` and `run`. -/

theorem tick_day_eq (rand : Nat → Nat) (cursor : Nat) (s : Simulation) :
    (s.tick rand cursor).1.day = s.day + 1 := rfl

theorem tick_houses_eq (rand : Nat → Nat) (cursor : Nat) (s : Simulation) :
    (s.tick rand cursor).1.houses = (visitZombies rand cursor s.zombies s.houses).1 := rfl

theorem tick_zombies_eq (rand : Nat → Nat) (cursor : Nat) (s : Simulation) :
    (s.tick rand cursor).1.zombies =
      s.zombies + (visitZombies rand cursor s.zombies s.houses).2 := rfl

theorem tick_cursor_eq (rand : Nat → Nat) (cursor : Nat) (s : Simulation) :
    (s.tick rand cursor).2 = cursor + s.zombies := rfl

theorem tick_houses_length (rand : Nat → Nat) (cursor : Nat) (s : Simulation) :
    (s.tick rand cursor).1.houses.length = s.houses.length := by
  rw [tick_houses_eq, visitZombies_length]

theorem tick_countInfected (rand : Nat → Nat) (cursor : Nat) (s : Simulation) :
    countInfected (s.tick rand cursor).1.houses =
      countInfected s.houses + (visitZombies rand cursor s.zombies s.houses).2 := by
  rw [tick_houses_eq, visitZombies_count]

theorem run_succ (rand : Nat → Nat) (N d : Nat) :
    Simulation.run rand N (d + 1) =
      Simulation.tick rand (Simulation.run rand N d).2 (Simulation.run rand N d).1 := rfl

theorem countInfected_replicate_false (N : Nat) :
    countInfected (List.replicate N false) = 0 := by
  unfold countInfected
  rw [List.count_replicate]
  simp

theorem run_houses_length (rand : Nat → Nat) (N d : Nat) :
    (Simulation.run rand N d).1.houses.length = N := by
  induction d with
  | zero => simp [Simulation.run, Simulation.init]
  | succ d ih => rw [run_succ, tick_houses_length]; exact ih

theorem run_zombies_invariant (rand : Nat → Nat) (N d : Nat) :
    (Simulation.run rand N d).1.zombies =
      1 + countInfected (Simulation.run rand N d).1.houses := by
  induction d with
  | zero =>
    show (Simulation.init N).zombies = 1 + countInfected (Simulation.init N).houses
    rw [Simulation.init]
    simp [countInfected_replicate_false]
  | succ d ih =>
    rw [run_succ, tick_zombies_eq, tick_countInfected, ih]
    omega

theorem run_zombies_pos (rand : Nat → Nat) (N d : Nat) :
    1 ≤ (Simulation.run rand N d).1.zombies := by
  rw [run_zombies_invariant]
  omega

theorem run_cursor_ge (rand : Nat → Nat) (N d : Nat) :
    d ≤ (Simulation.run rand N d).2 := by
  induction d with
  | zero => exact Nat.zero_le _
  | succ d ih =>
    rw [run_succ, tick_cursor_eq]
    have := run_zombies_pos rand N d
    omega

theorem run_covers (rand : Nat → Nat) (N : Nat) (hrand : ∀ k, rand k < N) (d : Nat) :
    ∀ k, k < (Simulation.run rand N d).2 →
      (Simulation.run rand N d).1.houses.getD (rand k) false = true := by
  induction d with
  | zero =>
    intro k hk
    exact absurd hk (by simp [Simulation.run])
  | succ d ih =>
    intro k hk
    rw [run_succ, tick_cursor_eq] at hk
    rw [run_succ, tick_houses_eq]
    rcases Nat.lt_or_ge k (Simulation.run rand N d).2 with hlt | hge
    · exact visitZombies_mono _ _ _ _ (ih k hlt)
    · have hjlt : rand k < (Simulation.run rand N d).1.houses.length := by
        rw [run_houses_length]
        exact hrand k
      refine (visitZombies_getD_iff _ _ _ _ hjlt).mpr (Or.inr ?_)
      refine ⟨k - (Simulation.run rand N d).2, by omega, ?_⟩
      congr 1
      omega

/-! Behaviour under the degenerate random source that always draws index 0
(the spec's pathological-generator scenario with 100 houses). -/

theorem tick_stuck (c day : Nat) :
    Simulation.tick (fun _ => 0) c ⟨2, day, stuckHouses⟩ =
      (⟨2, day + 1, stuckHouses⟩, c + 2) := rfl

theorem stuck_not_complete (zombies day : Nat) :
    (⟨zombies, day, stuckHouses⟩ : Simulation).isComplete = false := rfl

theorem run_always_zero_stuck (d : Nat) :
    (Simulation.run (fun _ => 0) 100 (d + 1)).1 = ⟨2, d + 1, stuckHouses⟩ := by
  induction d with
  | zero => rfl
  | succ d ih =>
    show (Simulation.tick (fun _ => 0) (Simulation.run (fun _ => 0) 100 (d + 1)).2
      (Simulation.run (fun _ => 0) 100 (d + 1)).1).1 = _
    rw [ih, tick_stuck]

/-! Generic list access lemmas used by the orchestrator invariants. -/

theorem getD_set_self {α : Type} (l : List α) {i : Nat} (x d : α) (h : i < l.length) :
    (l.set i x).getD i d = x := by
  rw [List.getD_eq_getElem?_getD, List.getElem?_set_self h]
  rfl

theorem getD_set_ne {α : Type} (l : List α) {i j : Nat} (x d : α) (h : i ≠ j) :
    (l.set i x).getD j d = l.getD j d := by
  rw [List.getD_eq_getElem?_getD, List.getElem?_set_ne h, ← List.getD_eq_getElem?_getD]

theorem getD_append_left {α : Type} (xs ys : List α) {j : Nat} (d : α) (h : j < xs.length) :
    (xs ++ ys).getD j d = xs.getD j d := by
  rw [List.getD_eq_getElem?_getD, List.getElem?_append_left h, ← List.getD_eq_getElem?_getD]

theorem getD_concat_self {α : Type} (xs : List α) (v d : α) :
    (xs ++ [v]).getD xs.length d = v := by
  rw [List.getD_eq_getElem?_getD, List.getElem?_concat_length]
  rfl

theorem getD_replicate_of_lt {α : Type} {k j : Nat} (x d : α) (h : j < k) :
    (List.replicate k x).getD j d = x := by
  rw [List.getD_eq_getElem?_getD, List.getElem?_replicate, if_pos h]
  rfl

/-! Unfolding equations for the orchestrator step. -/

theorem init_not_complete {N : Nat} (hN : 1 ≤ N) :
    (Simulation.init N).isComplete = false := by
  have hmem : false ∈ List.replicate N false :=
    List.mem_replicate.mpr ⟨by omega, rfl⟩
  show (!(List.replicate N false).contains false) = false
  cases hc : (List.replicate N false).contains false
  · exact absurd hmem (not_mem_false_of_contains_eq_false hc)
  · rfl

theorem appTrace_succ (rand : Nat → Nat) (k N n : Nat) :
    appTrace rand k N (n + 1) =
      ((appStep rand (appTrace rand k N n).1).1,
       (appTrace rand k N n).2 ++ (appStep rand (appTrace rand k N n).1).2.toList) := rfl

theorem appStep_of_inert (rand : Nat → Nat) (st : AppState)
    (h : ¬ st.current < st.simulations.length) :
    appStep rand st = (st, none) := by
  unfold appStep
  rw [if_neg h]

theorem appStep_of_done (rand : Nat → Nat) (st : AppState)
    (h : st.current < st.simulations.length)
    (hdone : ((st.simulations.getD st.current (Simulation.init 0)).tick rand
      st.cursor).1.isComplete = true) :
    appStep rand st =
      ({ simulations := st.simulations.set st.current
           ((st.simulations.getD st.current (Simulation.init 0)).tick rand st.cursor).1,
         current := st.current + 1,
         results := Results.add st.results
           ((st.simulations.getD st.current (Simulation.init 0)).tick rand st.cursor).1.day,
         cursor := ((st.simulations.getD st.current (Simulation.init 0)).tick rand
           st.cursor).2 },
       some (Event.done st.current
         ((st.simulations.getD st.current (Simulation.init 0)).tick rand
           st.cursor).1.day)) := by
  unfold appStep
  rw [if_pos h]
  dsimp only
  rw [hdone]
  simp

theorem appStep_of_not_done (rand : Nat → Nat) (st : AppState)
    (h : st.current < st.simulations.length)
    (hdone : ((st.simulations.getD st.current (Simulation.init 0)).tick rand
      st.cursor).1.isComplete = false) :
    appStep rand st =
      ({ st with
         simulations := st.simulations.set st.current
           ((st.simulations.getD st.current (Simulation.init 0)).tick rand st.cursor).1,
         cursor := ((st.simulations.getD st.current (Simulation.init 0)).tick rand
           st.cursor).2 },
       none) := by
  unfold appStep
  rw [if_pos h]
  dsimp only
  rw [hdone]
  simp

theorem results_add_eq (rs : List Nat) (v : Nat) : Results.add rs v = rs ++ [v] := rfl

theorem app_invariant (rand : Nat → Nat) (k N n : Nat) :
    (appTrace rand k N n).1.simulations.length = k ∧
    (appTrace rand k N n).1.current ≤ k ∧
    (appTrace rand k N n).1.results.length = (appTrace rand k N n).1.current ∧
    (∀ j, j < (appTrace rand k N n).1.current →
      ((appTrace rand k N n).1.simulations.getD j (Simulation.init 0)).isComplete = true) ∧
    (∀ j, (appTrace rand k N n).1.current < j → j < k →
      (appTrace rand k N n).1.simulations.getD j (Simulation.init 0) = Simulation.init N) ∧
    (1 ≤ N → (appTrace rand k N n).1.current < k →
      ((appTrace rand k N n).1.simulations.getD (appTrace rand k N n).1.current
        (Simulation.init 0)).isComplete = false) ∧
    (appTrace rand k N n).2 =
      (appTrace rand k N n).1.results.enum.map (fun p => Event.done p.1 p.2) ∧
    (∀ j, j < (appTrace rand k N n).1.current →
      (appTrace rand k N n).1.results.getD j 0 =
        ((appTrace rand k N n).1.simulations.getD j (Simulation.init 0)).day) := by
  induction n with
  | zero =>
    refine ⟨?_, ?_, ?_, ?_, ?_, ?_, ?_, ?_⟩
    · simp [appTrace, AppState.init]
    · exact Nat.zero_le k
    · rfl
    · intro j hj
      exact absurd hj (Nat.not_lt_zero j)
    · intro j hj hjk
      exact getD_replicate_of_lt _ _ hjk
    · intro hN hk
      have hk0 : 0 < k := hk
      show ((List.replicate k (Simulation.init N)).getD 0 (Simulation.init 0)).isComplete = false
      rw [getD_replicate_of_lt _ _ hk0]
      exact init_not_complete hN
    · rfl
    · intro j hj
      exact absurd hj (Nat.not_lt_zero j)
  | succ n ih =>
    obtain ⟨h1, h2, h3, h4, h5, h6, h7, h8⟩ := ih
    by_cases hact :
      (appTrace rand k N n).1.current < (appTrace rand k N n).1.simulations.length
    · have hcur : (appTrace rand k N n).1.current < k := by omega
      by_cases hdone :
        (((appTrace rand k N n).1.simulations.getD (appTrace rand k N n).1.current
          (Simulation.init 0)).tick rand (appTrace rand k N n).1.cursor).1.isComplete = true
      · rw [appTrace_succ, appStep_of_done rand _ hact hdone]
        dsimp only
        rw [results_add_eq]
        refine ⟨?_, ?_, ?_, ?_, ?_, ?_, ?_, ?_⟩
        · rw [List.length_set]
          exact h1
        · omega
        · rw [List.length_append, h3]
          rfl
        · intro j hj
          rcases Nat.lt_or_ge j (appTrace rand k N n).1.current with hlt | hge
          · rw [getD_set_ne _ _ _ (by omega)]
            exact h4 j hlt
          · have hj_eq : j = (appTrace rand k N n).1.current := by omega
            subst hj_eq
            rw [getD_set_self _ _ _ hact]
            exact hdone
        · intro j hj hjk
          rw [getD_set_ne _ _ _ (by omega)]
          exact h5 j (by omega) hjk
        · intro hN hk
          rw [getD_set_ne _ _ _ (by omega)]
          rw [h5 _ (by omega) hk]
          exact init_not_complete hN
        · rw [h7, List.enum_append]
          simp only [List.map_append, List.enumFrom]
          rw [h3]
          rfl
        · intro j hj
          rcases Nat.lt_or_ge j (appTrace rand k N n).1.current with hlt | hge
          · rw [getD_append_left _ _ _ (by omega), getD_set_ne _ _ _ (by omega)]
            exact h8 j hlt
          · have hj_eq : j = (appTrace rand k N n).1.current := by omega
            subst hj_eq
            rw [← h3, getD_concat_self, h3, getD_set_self _ _ _ hact]
      · have hdone' := Bool.eq_false_iff.mpr hdone
        rw [appTrace_succ, appStep_of_not_done rand _ hact hdone']
        dsimp only
        refine ⟨?_, ?_, ?_, ?_, ?_, ?_, ?_, ?_⟩
        · rw [List.length_set]
          exact h1
        · exact h2
        · exact h3
        · intro j hj
          rw [getD_set_ne _ _ _ (by omega)]
          exact h4 j hj
        · intro j hj hjk
          rw [getD_set_ne _ _ _ (by omega)]
          exact h5 j hj hjk
        · intro hN hk
          rw [getD_set_self _ _ _ hact]
          exact hdone'
        · simp only [Option.toList, List.append_nil]
          exact h7
        · intro j hj
          rw [getD_set_ne _ _ _ (by omega)]
          exact h8 j hj
    · rw [appTrace_succ, appStep_of_inert rand _ hact]
      dsimp only
      simp only [Option.toList, List.append_nil]
      exact ⟨h1, h2, h3, h4, h5, h6, h7, h8⟩

/-! Claim theorems. -/

/-- Claim C1: one call to `tick()` increments the day counter by 1; each of
the current `zombies` zombies draws one random index (zombie `z` consumes
`rand (cursor + z)`, a uniformly drawn index in `[0, N)`): after the step a
house is infected exactly when it was infected before or some zombie drew
its index; the newly-infected tally added to the zombie count equals the
increase in the number of infected houses; and the run is complete exactly
when no house remains uninfected. -/
theorem C1_tick_matches_spec (s : Simulation) (rand : Nat → Nat) (cursor N : Nat)
    (hN : s.houses.length = N) (_hrand : ∀ k, rand k < N) :
    (s.tick rand cursor).1.day = s.day + 1 ∧
    (s.tick rand cursor).2 = cursor + s.zombies ∧
    (s.tick rand cursor).1.houses.length = N ∧
    (∀ j, j < N →
      ((s.tick rand cursor).1.houses.getD j false = true ↔
        s.houses.getD j false = true ∨ ∃ z, z < s.zombies ∧ rand (cursor + z) = j)) ∧
    (s.tick rand cursor).1.zombies =
      s.zombies + (countInfected (s.tick rand cursor).1.houses - countInfected s.houses) ∧
    ((s.tick rand cursor).1.isComplete = true ↔
      ∀ j, j < N → (s.tick rand cursor).1.houses.getD j false = true) := by
  refine ⟨tick_day_eq rand cursor s, tick_cursor_eq rand cursor s, ?_, ?_, ?_, ?_⟩
  · rw [tick_houses_length, hN]
  · intro j hj
    rw [tick_houses_eq]
    exact visitZombies_getD_iff rand cursor s.zombies s.houses (hN ▸ hj)
  · rw [tick_zombies_eq, tick_countInfected]
    omega
  · rw [isComplete_iff_getD, tick_houses_length, hN]

/-- Witness for C1 at a fresh one-house run with the constant-0 draw
stream. -/
theorem C1_tick_matches_spec_witness :
    ((Simulation.init 1).houses.length = 1) ∧
    ((Simulation.init 1).tick (fun _ => 0) 0).1.day = (Simulation.init 1).day + 1 ∧
    ((Simulation.init 1).tick (fun _ => 0) 0).2 = 0 + (Simulation.init 1).zombies ∧
    ((Simulation.init 1).tick (fun _ => 0) 0).1.houses.length = 1 ∧
    (∀ j, j < 1 →
      (((Simulation.init 1).tick (fun _ => 0) 0).1.houses.getD j false = true ↔
        (Simulation.init 1).houses.getD j false = true ∨
          ∃ z, z < (Simulation.init 1).zombies ∧ 0 = j)) ∧
    ((Simulation.init 1).tick (fun _ => 0) 0).1.zombies =
      (Simulation.init 1).zombies +
        (countInfected ((Simulation.init 1).tick (fun _ => 0) 0).1.houses -
          countInfected (Simulation.init 1).houses) ∧
    (((Simulation.init 1).tick (fun _ => 0) 0).1.isComplete = true ↔
      ∀ j, j < 1 → ((Simulation.init 1).tick (fun _ => 0) 0).1.houses.getD j false = true) :=
  ⟨rfl, C1_tick_matches_spec (Simulation.init 1) (fun _ => 0) 0 1 rfl (fun _ => Nat.one_pos)⟩

/-- Claim C2: after any single `tick()` the zombie count has not decreased,
the day counter is the previous value plus 1, the infected-house count has
not decreased, the completion signal fires at a step boundary exactly when
the infected count equals `N`, and once the infected count is `N` it stays
`N`. -/
theorem C2_tick_invariants (s : Simulation) (rand : Nat → Nat) (cursor N : Nat)
    (hN : s.houses.length = N) :
    s.zombies ≤ (s.tick rand cursor).1.zombies ∧
    (s.tick rand cursor).1.day = s.day + 1 ∧
    countInfected s.houses ≤ countInfected (s.tick rand cursor).1.houses ∧
    ((s.tick rand cursor).1.isComplete = true ↔
      countInfected (s.tick rand cursor).1.houses = N) ∧
    (countInfected s.houses = N → countInfected (s.tick rand cursor).1.houses = N) := by
  refine ⟨?_, tick_day_eq rand cursor s, ?_, ?_, ?_⟩
  · rw [tick_zombies_eq]
    omega
  · rw [tick_countInfected]
    omega
  · rw [isComplete_iff_countInfected, tick_houses_length, hN]
  · intro h
    have hmono := tick_countInfected rand cursor s
    have hle := countInfected_le_length (s.tick rand cursor).1.houses
    rw [tick_houses_length, hN] at hle
    omega

/-- Witness for C2 at a fresh one-house run with the constant-0 draw
stream. -/
theorem C2_tick_invariants_witness :
    ((Simulation.init 1).houses.length = 1) ∧
    (Simulation.init 1).zombies ≤ ((Simulation.init 1).tick (fun _ => 0) 0).1.zombies ∧
    ((Simulation.init 1).tick (fun _ => 0) 0).1.day = (Simulation.init 1).day + 1 ∧
    countInfected (Simulation.init 1).houses ≤
      countInfected ((Simulation.init 1).tick (fun _ => 0) 0).1.houses ∧
    (((Simulation.init 1).tick (fun _ => 0) 0).1.isComplete = true ↔
      countInfected ((Simulation.init 1).tick (fun _ => 0) 0).1.houses = 1) ∧
    (countInfected (Simulation.init 1).houses = 1 →
      countInfected ((Simulation.init 1).tick (fun _ => 0) 0).1.houses = 1) :=
  ⟨rfl, C2_tick_invariants (Simulation.init 1) (fun _ => 0) 0 1 rfl⟩

/-- Claim C5: `render` reports a count equal to the number of recorded values
and an average equal to their sum divided by that count; in particular
recording 10, 20, 30 yields count 3 and average 20. -/
theorem C5_summarize (results : List Nat) (_h : results ≠ []) :
    (Results.render results).1 = results.length ∧
    (Results.render results).2 = (results.sum : ℚ) / (results.length : ℚ) ∧
    Results.render (Results.add (Results.add (Results.add [] 10) 20) 30) = (3, 20) := by
  refine ⟨rfl, ?_, ?_⟩
  · unfold Results.render
    dsimp only
    congr 2
    rw [List.sum_eq_foldl]
  · unfold Results.render Results.add
    norm_num

/-- Witness for C5 at the recorded sequence 10, 20, 30. -/
theorem C5_summarize_witness :
    ([10, 20, 30] ≠ ([] : List Nat)) ∧
    (Results.render [10, 20, 30]).1 = ([10, 20, 30] : List Nat).length ∧
    (Results.render [10, 20, 30]).2 =
      (([10, 20, 30] : List Nat).sum : ℚ) / (([10, 20, 30] : List Nat).length : ℚ) ∧
    Results.render (Results.add (Results.add (Results.add [] 10) 20) 30) = (3, 20) :=
  ⟨by decide, C5_summarize [10, 20, 30] (by decide)⟩

/-- Counterexample to claim C9 as stated: ticking the (terminal) state that a
one-house run reaches after its first day does change the run's state — the
day counter is incremented by the unconditional `this.day++`. -/
theorem C9_counterexample :
    (Simulation.run (fun _ => 0) 1 1).1.isComplete = true ∧
    ((Simulation.run (fun _ => 0) 1 1).1.tick (fun _ => 0) 1).1.day ≠
      (Simulation.run (fun _ => 0) 1 1).1.day := by
  decide

/-- Claim C9 as amended: invoking `tick()` on a run that has already reached
its terminal condition leaves the houses and the zombie count unchanged (the
infection-selection loop executes but infects nothing), but it still
increments the day counter by 1, and the run remains terminal (so the
completion branch fires again). -/
theorem C9_tick_on_terminal (s : Simulation) (rand : Nat → Nat) (cursor : Nat)
    (h : s.isComplete = true) :
    (s.tick rand cursor).1.houses = s.houses ∧
    (s.tick rand cursor).1.zombies = s.zombies ∧
    (s.tick rand cursor).1.day = s.day + 1 ∧
    (s.tick rand cursor).1.isComplete = true := by
  have hc : s.houses.contains false = false := (isComplete_iff_contains s).mp h
  have hvz := visitZombies_of_complete rand cursor s.zombies s.houses hc
  refine ⟨?_, ?_, tick_day_eq rand cursor s, ?_⟩
  · rw [tick_houses_eq, hvz]
  · rw [tick_zombies_eq, hvz]
    omega
  · show (!((s.tick rand cursor).1.houses.contains false)) = true
    rw [tick_houses_eq, hvz, hc]
    rfl

/-- Witness for the amended C9 at the terminal one-house state. -/
theorem C9_tick_on_terminal_witness :
    ((⟨2, 1, [true]⟩ : Simulation).isComplete = true) ∧
    ((⟨2, 1, [true]⟩ : Simulation).tick (fun _ => 0) 1).1.houses = [true] ∧
    ((⟨2, 1, [true]⟩ : Simulation).tick (fun _ => 0) 1).1.zombies = 2 ∧
    ((⟨2, 1, [true]⟩ : Simulation).tick (fun _ => 0) 1).1.day = 1 + 1 ∧
    ((⟨2, 1, [true]⟩ : Simulation).tick (fun _ => 0) 1).1.isComplete = true :=
  ⟨by decide, C9_tick_on_terminal ⟨2, 1, [true]⟩ (fun _ => 0) 1 (by decide)⟩

/-- Claim C10 (implicit invariant): at construction and after every tick the
zombie count equals 1 plus the number of infected houses; hence one tick at
most doubles the zombie count and the zombie count never exceeds `N + 1`. -/
theorem C10_zombie_count_invariant (rand : Nat → Nat) (N d cursor : Nat) :
    (Simulation.run rand N d).1.zombies =
      1 + countInfected (Simulation.run rand N d).1.houses ∧
    (Simulation.run rand N d).1.zombies ≤ N + 1 ∧
    ((Simulation.run rand N d).1.tick rand cursor).1.zombies ≤
      2 * (Simulation.run rand N d).1.zombies := by
  refine ⟨run_zombies_invariant rand N d, ?_, ?_⟩
  · have h := run_zombies_invariant rand N d
    have hle := countInfected_le_length (Simulation.run rand N d).1.houses
    rw [run_houses_length] at hle
    omega
  · rw [tick_zombies_eq]
    have := visitZombies_tally_le rand cursor (Simulation.run rand N d).1.zombies
      (Simulation.run rand N d).1.houses
    omega

/-- Counterexample to claim C3 as stated: it is not true that every run with
`N ≥ 1` houses terminates under every sequence of in-range draws — under the
constant-0 draw stream a 100-house run is never complete at any day. -/
theorem C3_counterexample :
    ¬ (∀ N : Nat, 1 ≤ N → ∀ rand : Nat → Nat, (∀ k, rand k < N) →
        ∃ d, (Simulation.run rand N d).1.isComplete = true) := by
  intro h
  obtain ⟨d, hd⟩ := h 100 (by omega) (fun _ => 0) (fun _ => Nat.succ_pos 99)
  cases d with
  | zero =>
    rw [show (Simulation.run (fun _ => 0) 100 0).1 = Simulation.init 100 from rfl,
      init_not_complete (by omega)] at hd
    exact Bool.false_ne_true hd
  | succ e =>
    rw [run_always_zero_stuck e, stuck_not_complete] at hd
    exact Bool.false_ne_true hd

/-- Claim C3 as amended: for every `N ≥ 1` there is a sequence of in-range
draws (round-robin) under which the run reaches the terminal condition after
a finite number of day-steps — at most `N`; termination does not hold for
every draw sequence. -/
theorem C3_some_draw_sequence_terminates (N : Nat) (hN : 1 ≤ N) :
    ∃ rand : Nat → Nat, (∀ k, rand k < N) ∧
      ∃ d, d ≤ N ∧ (Simulation.run rand N d).1.isComplete = true := by
  have hrand : ∀ k : Nat, k % N < N := fun k => Nat.mod_lt k (by omega)
  refine ⟨fun k => k % N, hrand, N, Nat.le_refl N, ?_⟩
  rw [isComplete_iff_getD]
  intro j hj
  rw [run_houses_length] at hj
  have hcur := run_cursor_ge (fun k => k % N) N N
  have hcov := run_covers (fun k => k % N) N hrand N j (by omega)
  have hcov2 : (Simulation.run (fun k => k % N) N N).1.houses.getD (j % N) false = true := hcov
  rwa [Nat.mod_eq_of_lt hj] at hcov2

/-- Witness for the amended C3 at `N = 3`. -/
theorem C3_some_draw_sequence_terminates_witness :
    (1 ≤ 3) ∧
    ∃ rand : Nat → Nat, (∀ k, rand k < 3) ∧
      ∃ d, d ≤ 3 ∧ (Simulation.run rand 3 d).1.isComplete = true :=
  ⟨by omega, C3_some_draw_sequence_terminates 3 (by omega)⟩

/-- Claim C6: with 100 houses and the degenerate random source that always
yields index 0, the state after any day `d ≥ 1` has exactly house 0 infected
and zombie count 2, houses 1..99 stay uninfected, and the run is never
complete (not at day 0 and not at any later day): it never terminates. -/
theorem C6_always_zero_never_terminates (d : Nat) (hd : 1 ≤ d) :
    (Simulation.run (fun _ => 0) 100 d).1 = ⟨2, d, stuckHouses⟩ ∧
    (Simulation.run (fun _ => 0) 100 d).1.isComplete = false ∧
    (∀ j, 1 ≤ j → j < 100 →
      (Simulation.run (fun _ => 0) 100 d).1.houses.getD j false = false) ∧
    (Simulation.init 100).isComplete = false := by
  obtain ⟨e, rfl⟩ : ∃ e, d = e + 1 := ⟨d - 1, by omega⟩
  refine ⟨run_always_zero_stuck e, ?_, ?_, by decide⟩
  · rw [run_always_zero_stuck e]
    exact stuck_not_complete 2 (e + 1)
  · intro j h1 h100
    rw [run_always_zero_stuck e]
    show stuckHouses.getD j false = false
    unfold stuckHouses
    rw [List.getD_eq_getElem?_getD, List.getElem?_set_ne (by omega),
      List.getElem?_replicate, if_pos h100]
    rfl

/-- Witness for C6 at day 1. -/
theorem C6_always_zero_never_terminates_witness :
    (1 ≤ 1) ∧
    (Simulation.run (fun _ => 0) 100 1).1 = ⟨2, 1, stuckHouses⟩ ∧
    (Simulation.run (fun _ => 0) 100 1).1.isComplete = false ∧
    (∀ j, 1 ≤ j → j < 100 →
      (Simulation.run (fun _ => 0) 100 1).1.houses.getD j false = false) ∧
    (Simulation.init 100).isComplete = false :=
  ⟨by omega, C6_always_zero_never_terminates 1 (by omega)⟩

/-- Claim C4: runs execute strictly sequentially.  After any number of
scheduler firings: `current ≤ k`; exactly `current` day counts have been
recorded, so run `i`'s final day count is in the aggregator before run
`i+1` is ever ticked; every run before `current` has completed; and every
run after `current` is still in its freshly-constructed state, never
started — hence at most one run (index `current`) is ever active. -/
theorem C4_sequential_runs (rand : Nat → Nat) (k N n : Nat) :
    (appTrace rand k N n).1.current ≤ k ∧
    (appTrace rand k N n).1.results.length = (appTrace rand k N n).1.current ∧
    (∀ j, j < (appTrace rand k N n).1.current →
      ((appTrace rand k N n).1.simulations.getD j (Simulation.init 0)).isComplete = true) ∧
    (∀ j, (appTrace rand k N n).1.current < j → j < k →
      (appTrace rand k N n).1.simulations.getD j (Simulation.init 0) = Simulation.init N) := by
  obtain ⟨h1, h2, h3, h4, h5, h6, h7, h8⟩ := app_invariant rand k N n
  exact ⟨h2, h3, h4, h5⟩

/-- Witness for C4 with three one-house runs after one scheduler firing
(run 0 has completed and been recorded; run 2 is untouched). -/
theorem C4_sequential_runs_witness :
    (appTrace (fun _ => 0) 3 1 1).1.current ≤ 3 ∧
    (appTrace (fun _ => 0) 3 1 1).1.results.length =
      (appTrace (fun _ => 0) 3 1 1).1.current ∧
    ((appTrace (fun _ => 0) 3 1 1).1.simulations.getD 0
      (Simulation.init 0)).isComplete = true ∧
    (appTrace (fun _ => 0) 3 1 1).1.simulations.getD 2 (Simulation.init 0) =
      Simulation.init 1 :=
  ⟨(C4_sequential_runs (fun _ => 0) 3 1 1).1,
   (C4_sequential_runs (fun _ => 0) 3 1 1).2.1,
   (C4_sequential_runs (fun _ => 0) 3 1 1).2.2.1 0 (by decide),
   (C4_sequential_runs (fun _ => 0) 3 1 1).2.2.2 2 (by decide) (by omega)⟩

/-- Claim C7: a configuration with `numberOfSimulations < 1` fails at
construction time (`new Array(n)` throws a `RangeError` for negative
lengths, and for zero simulations `initSynchronousSimulations`'s
`[].reduce(f)` throws a `TypeError`), while any `numberOfSimulations ≥ 1`
constructs successfully; and the aggregator's summary — reached only once
the last run has completed, i.e. when `current = k` — always sees exactly
`k ≥ 1` recorded results, never a count of 0. -/
theorem C7_invalid_config_rejected (numberOfSimulations : Int) (numberOfHouses : Nat)
    (h : numberOfSimulations < 1) :
    (∃ msg, Application.build numberOfSimulations numberOfHouses = Except.error msg) ∧
    (∀ m : Int, 1 ≤ m →
      Application.build m numberOfHouses =
        Except.ok (AppState.init m.toNat numberOfHouses)) ∧
    (∀ rand k N n, (appTrace rand k N n).1.current = k →
      (appTrace rand k N n).1.results.length = k) := by
  refine ⟨?_, ?_, ?_⟩
  · unfold Application.build
    by_cases hneg : numberOfSimulations < 0
    · rw [if_pos hneg]
      exact ⟨_, rfl⟩
    · have h0 : numberOfSimulations = 0 := by omega
      rw [if_neg hneg, if_pos h0]
      exact ⟨_, rfl⟩
  · intro m hm
    unfold Application.build
    rw [if_neg (by omega), if_neg (by omega)]
  · intro rand k N n hcurr
    have h3 := (app_invariant rand k N n).2.2.1
    rw [h3, hcurr]

/-- Witness for C7 at `numberOfSimulations = 0` with 5 houses. -/
theorem C7_invalid_config_rejected_witness :
    ((0 : Int) < 1) ∧
    (∃ msg, Application.build 0 5 = Except.error msg) ∧
    (∀ m : Int, 1 ≤ m →
      Application.build m 5 = Except.ok (AppState.init m.toNat 5)) ∧
    (∀ rand k N n, (appTrace rand k N n).1.current = k →
      (appTrace rand k N n).1.results.length = k) :=
  ⟨by omega, C7_invalid_config_rejected 0 5 (by omega)⟩

/-- Claim C8: after any number of scheduler firings the emitted `onDone`
events are exactly one `done i dᵢ` per recorded result, in completion order,
so each run notifies exactly once; the day carried equals the final day
counter of the corresponding (completed, never again ticked) run; and while
runs remain, the single possibly-active run is not yet terminal — so each
event fires precisely at the step its run first reaches the terminal
condition. -/
theorem C8_done_fires_exactly_once (rand : Nat → Nat) (k N n : Nat) (hN : 1 ≤ N) :
    (appTrace rand k N n).2 =
      (appTrace rand k N n).1.results.enum.map (fun p => Event.done p.1 p.2) ∧
    (∀ j, j < (appTrace rand k N n).1.current →
      (appTrace rand k N n).1.results.getD j 0 =
        ((appTrace rand k N n).1.simulations.getD j (Simulation.init 0)).day ∧
      ((appTrace rand k N n).1.simulations.getD j (Simulation.init 0)).isComplete = true) ∧
    ((appTrace rand k N n).1.current < k →
      ((appTrace rand k N n).1.simulations.getD (appTrace rand k N n).1.current
        (Simulation.init 0)).isComplete = false) ∧
    (appTrace rand k N n).1.results.length = (appTrace rand k N n).1.current := by
  obtain ⟨h1, h2, h3, h4, h5, h6, h7, h8⟩ := app_invariant rand k N n
  exact ⟨h7, fun j hj => ⟨h8 j hj, h4 j hj⟩, h6 hN, h3⟩

/-- Witness for C8 with two one-house runs after one scheduler firing. -/
theorem C8_done_fires_exactly_once_witness :
    (1 ≤ 1) ∧
    (appTrace (fun _ => 0) 2 1 1).2 =
      (appTrace (fun _ => 0) 2 1 1).1.results.enum.map (fun p => Event.done p.1 p.2) ∧
    ((appTrace (fun _ => 0) 2 1 1).1.results.getD 0 0 =
      ((appTrace (fun _ => 0) 2 1 1).1.simulations.getD 0 (Simulation.init 0)).day ∧
     ((appTrace (fun _ => 0) 2 1 1).1.simulations.getD 0
       (Simulation.init 0)).isComplete = true) ∧
    ((appTrace (fun _ => 0) 2 1 1).1.simulations.getD
      (appTrace (fun _ => 0) 2 1 1).1.current (Simulation.init 0)).isComplete = false ∧
    (appTrace (fun _ => 0) 2 1 1).1.results.length =
      (appTrace (fun _ => 0) 2 1 1).1.current :=
  ⟨by omega,
   (C8_done_fires_exactly_once (fun _ => 0) 2 1 1 (by omega)).1,
   (C8_done_fires_exactly_once (fun _ => 0) 2 1 1 (by omega)).2.1 0 (by decide),
   (C8_done_fires_exactly_once (fun _ => 0) 2 1 1 (by omega)).2.2.1 (by decide),
   (C8_done_fires_exactly_once (fun _ => 0) 2 1 1 (by omega)).2.2.2⟩

end Simplocalypse
